import Mathlib

/-
Verification of the benchmark execution pipeline of the LLM-Bench
repository.  The repository ships the frontend consumers (NDJSON stream
parsing, the benchmark-run React hook, the test-set editor) together with
the rubric and design documents; the backend pipeline itself
(backend/benchmark.py per ADR 0004) is not part of the source tree, so the
Runner, Evaluator, JSONRepairer and PromptVersioner are modelled from the
spec, while everything on the frontend side is embedded directly from the
source files.  Scores are modelled as exact rationals; timestamps and
wall-clock durations are omitted from the event model as they carry no
logical content.
-/

namespace LLMBench

/-! ### Difficulty-aware pass threshold (Evaluator) -/

/-- Modelled from the spec: the difficulty-aware pass threshold of the
Evaluator (the backend evaluator code is not in the source tree).  Spec
4.3 and the Pass/Fail Criteria of src/prompts/rubric.md: score at least
0.6 passes for difficulty easy or unset, at least 0.5 for medium, at
least 0.4 for hard. -/
def passThreshold (difficulty : Option String) : ℚ :=
  match difficulty with
  | some "medium" => mkRat 1 2
  | some "hard" => mkRat 2 5
  | _ => mkRat 3 5

/-- Modelled from the spec: the passed flag is derived by comparing the
score against the difficulty-aware threshold. -/
def scorePassed (difficulty : Option String) (score : ℚ) : Bool :=
  passThreshold difficulty ≤ score

/-! ### SHA-256 and the PromptVersioner

The PromptVersioner is specified as the SHA-256 digest of the prompt
content with surrounding whitespace trimmed.  SHA-256 is implemented
below over byte lists, with 32-bit words represented as naturals reduced
modulo 2^32. -/

/-- Rotation of a 32-bit word to the right by n bits. -/
def rotr32 (x n : Nat) : Nat := ((x >>> n) ||| (x <<< (32 - n))) % 4294967296

/-- SHA-256 big sigma-0 word function. -/
def shaBigSigma0 (x : Nat) : Nat := (rotr32 x 2) ^^^ (rotr32 x 13) ^^^ (rotr32 x 22)

/-- SHA-256 big sigma-1 word function. -/
def shaBigSigma1 (x : Nat) : Nat := (rotr32 x 6) ^^^ (rotr32 x 11) ^^^ (rotr32 x 25)

/-- SHA-256 small sigma-0 word function. -/
def shaSmallSigma0 (x : Nat) : Nat := (rotr32 x 7) ^^^ (rotr32 x 18) ^^^ (x >>> 3)

/-- SHA-256 small sigma-1 word function. -/
def shaSmallSigma1 (x : Nat) : Nat := (rotr32 x 17) ^^^ (rotr32 x 19) ^^^ (x >>> 10)

/-- SHA-256 choice function; the complement of x is taken within 32 bits. -/
def shaCh (x y z : Nat) : Nat := (x &&& y) ^^^ ((x ^^^ 4294967295) &&& z)

/-- SHA-256 majority function. -/
def shaMaj (x y z : Nat) : Nat := (x &&& y) ^^^ (x &&& z) ^^^ (y &&& z)

/-- SHA-256 round constants. -/
def shaK : List Nat :=
  [1116352408, 1899447441, 3049323471, 3921009573, 961987163,
   1508970993, 2453635748, 2870763221, 3624381080, 310598401,
   607225278, 1426881987, 1925078388, 2162078206, 2614888103,
   3248222580, 3835390401, 4022224774, 264347078, 604807628,
   770255983, 1249150122, 1555081692, 1996064986, 2554220882,
   2821834349, 2952996808, 3210313671, 3336571891, 3584528711,
   113926993, 338241895, 666307205, 773529912, 1294757372,
   1396182291, 1695183700, 1986661051, 2177026350, 2456956037,
   2730485921, 2820302411, 3259730800, 3345764771, 3516065817,
   3600352804, 4094571909, 275423344, 430227734, 506948616,
   659060556, 883997877, 958139571, 1322822218, 1537002063,
   1747873779, 1955562222, 2024104815, 2227730452, 2361852424,
   2428436474, 2756734187, 3204031479, 3329325298]

/-- SHA-256 initial hash words. -/
def shaH0 : List Nat :=
  [1779033703, 3144134277, 1013904242,
   2773480762, 1359893119, 2600822924,
   528734635, 1541459225]

/-- Assembles one 32-bit word from four big-endian bytes. -/
def bytesToWordBE (b0 b1 b2 b3 : Nat) : Nat := ((b0 * 256 + b1) * 256 + b2) * 256 + b3

/-- Big-endian byte expansion of a number into n bytes. -/
def beBytes (n : Nat) (x : Nat) : List Nat :=
  (List.range n).map (fun i => (x >>> (8 * (n - 1 - i))) % 256)

/-- SHA-256 message padding: append 0x80, zero bytes up to 56 mod 64, and
the 8-byte big-endian bit length. -/
def sha256Pad (msg : List Nat) : List Nat :=
  msg ++ [0x80] ++ List.replicate ((119 - msg.length % 64) % 64) 0 ++ beBytes 8 (msg.length * 8)

/-- Splits a padded message into 64-byte blocks. -/
def sha256Blocks (padded : List Nat) : List (List Nat) :=
  (List.range (padded.length / 64)).map (fun i => (padded.drop (64 * i)).take 64)

/-- First 16 words of the message schedule of a block. -/
def blockWords (block : List Nat) : List Nat :=
  (List.range 16).map (fun i =>
    bytesToWordBE (block.getD (4 * i) 0) (block.getD (4 * i + 1) 0)
      (block.getD (4 * i + 2) 0) (block.getD (4 * i + 3) 0))

/-- Appends the next word of the SHA-256 message schedule. -/
def extendStep (w : List Nat) : List Nat :=
  w ++ [(shaSmallSigma1 (w.getD (w.length - 2) 0) + w.getD (w.length - 7) 0 +
         shaSmallSigma0 (w.getD (w.length - 15) 0) + w.getD (w.length - 16) 0) % 4294967296]

/-- Extends the 16-word schedule to 64 words. -/
def extendWords (w : List Nat) : List Nat :=
  (List.range 48).foldl (fun acc _ => extendStep acc) w

/-- One SHA-256 compression round over the eight working registers. -/
def shaRound (regs : List Nat) (kw : Nat × Nat) : List Nat :=
  match regs with
  | [a, b, c, d, e, f, g, h] =>
    let t1 := (h + shaBigSigma1 e + shaCh e f g + kw.1 + kw.2) % 4294967296
    let t2 := (shaBigSigma0 a + shaMaj a b c) % 4294967296
    [(t1 + t2) % 4294967296, a, b, c, (d + t1) % 4294967296, e, f, g]
  | other => other

/-- Compression of one 64-byte block into the running hash words. -/
def compressBlock (hs : List Nat) (block : List Nat) : List Nat :=
  let w := extendWords (blockWords block)
  let regs := (shaK.zip w).foldl shaRound hs
  (hs.zip regs).map (fun p => (p.1 + p.2) % 4294967296)

/-- SHA-256 digest of a byte list, as a list of 32 bytes. -/
def sha256Bytes (msg : List Nat) : List Nat :=
  (((sha256Blocks (sha256Pad msg)).foldl compressBlock shaH0).map (beBytes 4)).flatten

/-- Lower-case hex digit for a value below 16. -/
def hexDigit (n : Nat) : Char := "0123456789abcdef".toList.getD n '0'

/-- Lower-case hex string of a byte list. -/
def bytesToHex (bs : List Nat) : String :=
  String.mk ((bs.map (fun b => [hexDigit (b / 16), hexDigit (b % 16)])).flatten)

/-- UTF-8 encoding of a Unicode code point. -/
def utf8EncodeChar (c : Nat) : List Nat :=
  if c < 0x80 then [c]
  else if c < 0x800 then [0xc0 ||| (c >>> 6), 0x80 ||| (c &&& 0x3f)]
  else if c < 0x10000 then
    [0xe0 ||| (c >>> 12), 0x80 ||| ((c >>> 6) &&& 0x3f), 0x80 ||| (c &&& 0x3f)]
  else
    [0xf0 ||| (c >>> 18), 0x80 ||| ((c >>> 12) &&& 0x3f), 0x80 ||| ((c >>> 6) &&& 0x3f),
     0x80 ||| (c &&& 0x3f)]

/-- UTF-8 bytes of a string. -/
def utf8Bytes (s : String) : List Nat := (s.data.map (fun c => utf8EncodeChar c.toNat)).flatten

/-- Removes leading and trailing whitespace characters from a character list. -/
def trimChars (l : List Char) : List Char :=
  ((l.dropWhile Char.isWhitespace).reverse.dropWhile Char.isWhitespace).reverse

/-- Removes surrounding whitespace from a string, preserving the interior
exactly. -/
def trimString (s : String) : String := String.mk (trimChars s.data)

/-- Modelled from the spec: PromptVersioner.hash (the backend versioner
code is not in the source tree).  Per spec 3 and 4.1 it is the SHA-256
digest of the prompt content with surrounding whitespace trimmed and the
internal content preserved exactly, rendered in hex. -/
def promptVersionerHash (content : String) : String :=
  bytesToHex (sha256Bytes (utf8Bytes (trimString content)))

/-! ### Benchmark data model and the Runner state machine -/

/-- Modelled from the spec: a single prompt of a BenchmarkRequest (spec
3); the metadata map is abstracted as an opaque optional string. -/
structure PromptItem where
  id : String
  content : String
  expected_answer : Option String
  category : Option String
  difficulty : Option String
  metadata : Option String
deriving DecidableEq

/-- Modelled from the spec: a tool invocation reported by the
ModelAdapter, surfaced by the Runner as ToolEvents (spec 4.2). -/
structure ToolCall where
  name : String
  args : String
  result : Option String
deriving DecidableEq

/-- Modelled from the spec: the outcome of one ModelAdapter call — either
a completion with latency and reported tool invocations, or a provider
failure (ProviderError, TimeoutError or AuthError, all treated alike by
the Runner). -/
inductive AdapterResult where
  | ok (content : String) (latency_ms : Nat) (toolCalls : List ToolCall)
  | fail (reason : String)
deriving DecidableEq

/-- Modelled from the spec: the outcome of one Evaluator invocation —
a score in the unit interval, or a non-fatal evaluation failure such as
judge_parse_failed (spec 4.3). -/
inductive EvalOutcome where
  | ok (score : ℚ)
  | fail (reason : String)
deriving DecidableEq

/-- Modelled from the spec: the fail-fast request validation error
(spec 7). -/
inductive RequestError where
  | emptyPrompts
  | duplicateId
deriving DecidableEq

/-- Modelled from the spec: the typed benchmark events of the stream
(spec 3); timestamps, model and provider tags carry no logical content
for the claims and are omitted. -/
inductive Event where
  | answer (prompt_id prompt_hash content : String) (latency_ms : Nat)
  | tool (prompt_id tool_name tool_args : String)
  | eval (prompt_id : String) (score : ℚ) (passed : Bool) (error : Option String)
  | summary (total_prompts passedCount failedCount : Nat) (average_score : ℚ)
      (errors : List String)
deriving DecidableEq

/-- Modelled from the spec: a BenchmarkRequest (spec 3). -/
structure BenchmarkRequest where
  name : String
  subject_provider : String
  subject_model : String
  evaluator_provider : String
  evaluator_model : String
  enable_tools : Bool
  eval_type : String
  prompts : List PromptItem
deriving DecidableEq

/-- Modelled from the spec: the descriptive error placeholder used as the
AnswerEvent content when the ModelAdapter fails (spec 4.5, step 2). -/
def errorPlaceholder (reason : String) : String := "Error: " ++ reason

/-- Outcome of processing a single prompt: its emitted events in order,
its score, its pass flag, and its entry for the summary error list. -/
structure PromptOutcome where
  events : List Event
  score : ℚ
  passed : Bool
  errorEntry : Option String
deriving DecidableEq

/-- Modelled from the spec: the per-prompt algorithm of the
BenchmarkRunner (spec 4.5): hash the prompt, call the adapter, emit the
AnswerEvent (with the error placeholder and score 0 on adapter failure),
emit one ToolEvent per reported invocation, evaluate, and emit the
EvalEvent; failures are recorded for the summary error list as
"id: reason" and never abort the run. -/
def runPrompt (adapter : PromptItem → AdapterResult)
    (evaluator : PromptItem → String → EvalOutcome) (p : PromptItem) : PromptOutcome :=
  match adapter p with
  | .ok content _latency toolCalls =>
    let answerEv := Event.answer p.id (promptVersionerHash p.content) content _latency
    let toolEvs := toolCalls.map (fun t => Event.tool p.id t.name t.args)
    match evaluator p content with
    | .ok score =>
      let pd := scorePassed p.difficulty score
      ⟨answerEv :: (toolEvs ++ [Event.eval p.id score pd none]), score, pd, none⟩
    | .fail reason =>
      ⟨answerEv :: (toolEvs ++ [Event.eval p.id 0 false (some reason)]), 0, false,
        some (p.id ++ ": " ++ reason)⟩
  | .fail reason =>
    ⟨[Event.answer p.id (promptVersionerHash p.content) (errorPlaceholder reason) 0,
      Event.eval p.id 0 false (some reason)], 0, false, some (p.id ++ ": " ++ reason)⟩

/-- Modelled from the spec: the SummaryEvent built from the per-prompt
outcomes (spec 4.5): average_score is score_sum / total_prompts and
errors holds one entry per failed prompt, in prompt order. -/
def summaryOf (outs : List PromptOutcome) (n : Nat) : Event :=
  Event.summary n (outs.countP (fun o => o.passed)) (outs.countP (fun o => !o.passed))
    ((outs.map (fun o => o.score)).sum / (n : ℚ)) (outs.filterMap (fun o => o.errorEntry))

/-- Modelled from the spec: the full event stream of a validated run —
the per-prompt event blocks in caller order followed by exactly one
SummaryEvent. -/
def runEventStream (adapter : PromptItem → AdapterResult)
    (evaluator : PromptItem → String → EvalOutcome) (req : BenchmarkRequest) : List Event :=
  let outs := req.prompts.map (runPrompt adapter evaluator)
  (outs.map (fun o => o.events)).flatten ++ [summaryOf outs req.prompts.length]

/-- Modelled from the spec: BenchmarkRunner.run (spec 4.5 and 7): an
empty prompt list or a duplicate prompt id is rejected with RequestError
before any event is emitted; otherwise the run always completes with the
full event stream. -/
def runBenchmark (adapter : PromptItem → AdapterResult)
    (evaluator : PromptItem → String → EvalOutcome) (req : BenchmarkRequest) :
    Except RequestError (List Event) :=
  if req.prompts.isEmpty then .error .emptyPrompts
  else if (req.prompts.map PromptItem.id).Nodup then
    .ok (runEventStream adapter evaluator req)
  else .error .duplicateId

/-- Events actually emitted by a run: none when the request was rejected. -/
def emittedEvents (r : Except RequestError (List Event)) : List Event :=
  match r with
  | .ok evs => evs
  | .error _ => []

/-- Recognizes an AnswerEvent. -/
def isAnswerEvent : Event → Bool
  | .answer _ _ _ _ => true
  | _ => false

/-- Recognizes an EvalEvent. -/
def isEvalEvent : Event → Bool
  | .eval _ _ _ _ => true
  | _ => false

/-- Recognizes a ToolEvent. -/
def isToolEvent : Event → Bool
  | .tool _ _ _ => true
  | _ => false

/-- Recognizes a SummaryEvent. -/
def isSummaryEvent : Event → Bool
  | .summary _ _ _ _ _ => true
  | _ => false

/-- Recognizes the AnswerEvent of a given prompt id. -/
def isAnswerFor (pid : String) : Event → Bool
  | .answer pid2 _ _ _ => pid2 == pid
  | _ => false

/-- Recognizes the EvalEvent of a given prompt id. -/
def isEvalFor (pid : String) : Event → Bool
  | .eval pid2 _ _ _ => pid2 == pid
  | _ => false

/-- Score carried by an EvalEvent. -/
def evalScoreOf : Event → Option ℚ
  | .eval _ s _ _ => some s
  | _ => none

/-! ### Concrete fixtures used by witnesses -/

/-- Concrete deterministic adapter used for witnesses: fails with a
timeout on prompt id 2 and answers every other prompt. -/
def witnessAdapter : PromptItem → AdapterResult :=
  fun p => if p.id = "2" then .fail "timeout" else .ok ("answer to " ++ p.content) 5 []

/-- Concrete adapter used for witnesses that succeeds on every prompt. -/
def witnessAdapterOk : PromptItem → AdapterResult :=
  fun p => .ok ("answer to " ++ p.content) 5 []

/-- Concrete evaluator used for witnesses: every answer scores 1. -/
def witnessEvaluator : PromptItem → String → EvalOutcome :=
  fun _ _ => .ok 1

/-- Concrete two-prompt request used for witnesses. -/
def witnessRequest : BenchmarkRequest :=
  ⟨"w", "openai", "gpt", "openai", "gpt", false, "basic",
    [⟨"1", "What is 2+2?", some "4", some "math", none, none⟩,
     ⟨"2", "Explain AI", none, none, some "hard", none⟩]⟩

/-- Concrete request with an empty prompt list. -/
def witnessEmptyRequest : BenchmarkRequest :=
  ⟨"w", "openai", "gpt", "openai", "gpt", false, "basic", []⟩

/-- Concrete request with a duplicate prompt id. -/
def witnessDupRequest : BenchmarkRequest :=
  ⟨"w", "openai", "gpt", "openai", "gpt", false, "basic",
    [⟨"1", "a", none, none, none, none⟩, ⟨"1", "b", none, none, none, none⟩]⟩

/-! ### JSONRepairer -/

/-- Modelled from the spec: JSONRepairer.repair (spec 4.4; the backend
repairer code is not in the source tree).  parse abstracts strict JSON
parsing (none meaning a parse failure), structuralFix the deterministic
structural fixes of step 2, and reformatCall the model-assisted reformat
call of step 3.  The result pairs the parse outcome with the number of
model-assisted repair calls issued: direct parse first, then the
structural fix, and only with remaining budget one model call followed by
recursion on the new text with the decremented budget. -/
def repairJSON {α : Type} (parse : String → Option α) (structuralFix : String → String)
    (reformatCall : String → String) : String → Nat → Option α × Nat
  | raw, budget =>
    match parse raw with
    | some v => (some v, 0)
    | none =>
      match parse (structuralFix raw) with
      | some v => (some v, 0)
      | none =>
        match budget with
        | 0 => (none, 0)
        | b + 1 =>
          let r := repairJSON parse structuralFix reformatCall (reformatCall raw) b
          (r.1, r.2 + 1)

/-! ### NDJSON stream parsing (src/unnamed/part_006) -/

/-- Character-level semantics of the JavaScript String.split of the
buffer at newline characters, as used by parseNDJSONStream
(src/unnamed/part_006): splitting the empty text yields one empty line,
and a trailing newline yields a trailing empty line. -/
def splitLinesChar : List Char → List (List Char)
  | [] => [[]]
  | c :: rest =>
    let r := splitLinesChar rest
    if c = '\n' then [] :: r else (c :: r.headD []) :: r.tail

/-- String-level line split, as used by the test-set pages. -/
def splitLinesString (s : String) : List String := (splitLinesChar s.data).map String.mk

/-- Blankness test of a line: the JS guard if (line.trim()) is false
exactly when every character is whitespace. -/
def isBlankLine (l : List Char) : Bool := l.all Char.isWhitespace

/-- Per-line handling of parseNDJSONStream (src/unnamed/part_006): blank
lines are skipped, and lines that fail to parse are logged and skipped;
parse abstracts JSON.parse with none meaning a thrown error. -/
def parseLineStep {α : Type} (parse : List Char → Option α) (line : List Char) : Option α :=
  if isBlankLine line then none else parse line

/-- The read loop of parseNDJSONStream (src/unnamed/part_006): each chunk
is appended to the buffer, the buffer is split at newlines, the last
partial line is kept as the new buffer, the complete lines are parsed and
yielded in order, and at end of stream a non-blank remaining buffer is
parsed and yielded as the final event. -/
def ndjsonLoop {α : Type} (parse : List Char → Option α) :
    List Char → List (List Char) → List α
  | buffer, [] => (parseLineStep parse buffer).toList
  | buffer, chunk :: rest =>
    let lines := splitLinesChar (buffer ++ chunk)
    (lines.dropLast.filterMap (parseLineStep parse)) ++
      ndjsonLoop parse (lines.getLastD []) rest

/-- parseNDJSONStream (src/unnamed/part_006) over a chunked character
stream: the loop starting from an empty buffer. -/
def parseNDJSONStream {α : Type} (parse : List Char → Option α)
    (chunks : List (List Char)) : List α :=
  ndjsonLoop parse [] chunks

/-! ### The benchmark-run consumer (src/frontend/hooks/useBenchmarkRun.ts) -/

/-- ToolEvent as consumed by the frontend (src/unnamed/part_006). -/
structure FeToolEvent where
  prompt_id : String
  tool_name : String
  tool_args : String
deriving DecidableEq

/-- Benchmark events as consumed by useBenchmarkRun
(src/frontend/hooks/useBenchmarkRun.ts). -/
inductive FeEvent where
  | answer (prompt_id content : String) (latency_ms tokens_used : Option Nat)
  | eval (prompt_id : String) (score : ℚ) (passed : Bool)
  | tool (t : FeToolEvent)
  | summary (total_prompts passedCount failedCount : Nat) (average_score : ℚ)
deriving DecidableEq

/-- BenchmarkResult record built by useBenchmarkRun
(src/frontend/hooks/useBenchmarkRun.ts, lines 11 to 20). -/
structure FeBenchmarkResult where
  promptId : String
  prompt : String
  answer : String
  score : ℚ
  passed : Bool
  latencyMs : Option Nat
  tokensUsed : Option Nat
  tools : List FeToolEvent
deriving DecidableEq

/-- Insertion-ordered map update with JS Map.set semantics: an existing
key keeps its position, a new key is appended at the end. -/
def mapSet {β : Type} : List (String × β) → String → β → List (String × β)
  | [], k, v => [(k, v)]
  | (k0, v0) :: rest, k, v =>
    if k0 = k then (k, v) :: rest else (k0, v0) :: mapSet rest k v

/-- Lookup with JS Map.get semantics. -/
def mapGet {β : Type} : List (String × β) → String → Option β
  | [], _ => none
  | (k0, v0) :: rest, k => if k0 = k then some v0 else mapGet rest k

/-- Values of the insertion-ordered map, JS Map.values in insertion
order. -/
def mapValues {β : Type} (m : List (String × β)) : List β := m.map Prod.snd

/-- State of the useBenchmarkRun hook during a run: the resultsMap, the
processed-prompt counter, the last published results snapshot, the
received summary, the progress percentage and the running flag. -/
structure FeRunState where
  resultsMap : List (String × FeBenchmarkResult)
  processedPrompts : Nat
  results : List FeBenchmarkResult
  summary : Option FeEvent
  progress : Nat
  isRunning : Bool
deriving DecidableEq

/-- JS Math.round of (processed / total) * 100 on the nonnegative range. -/
def roundPct (processed total : Nat) : Nat := (200 * processed + total) / (2 * total)

/-- Event handler of runBenchmark in useBenchmarkRun
(src/frontend/hooks/useBenchmarkRun.ts, lines 80 to 132), transcribed
case by case: an AnswerEvent inserts a fresh result with score 0; an
EvalEvent updates the result when one exists, always increments the
processed counter, and publishes the map values as the results snapshot;
a ToolEvent appends to the tools of an existing result and is otherwise
dropped; a SummaryEvent stores the summary and ends the run. -/
def handleFeEvent (reqPrompts : List (String × String)) (st : FeRunState) :
    FeEvent → FeRunState
  | .answer pid content lat tok =>
    let promptContent := ((reqPrompts.find? (fun q => q.1 == pid)).map Prod.snd).getD ""
    { st with resultsMap := (mapSet st.resultsMap pid
        ⟨pid, promptContent, content, 0, false, lat, tok, []⟩) }
  | .eval pid score passed =>
    let m :=
      match mapGet st.resultsMap pid with
      | some r => mapSet st.resultsMap pid { r with score := score, passed := passed }
      | none => st.resultsMap
    { st with
      resultsMap := m
      processedPrompts := st.processedPrompts + 1
      results := mapValues m
      progress := roundPct (st.processedPrompts + 1) reqPrompts.length }
  | .tool t =>
    match mapGet st.resultsMap t.prompt_id with
    | some r =>
      { st with resultsMap := (mapSet st.resultsMap t.prompt_id
          { r with tools := r.tools ++ [t] }) }
    | none => st
  | .summary tp pc fc avg =>
    { st with
      summary := some (FeEvent.summary tp pc fc avg)
      isRunning := false
      progress := 100 }

/-- Concrete consumer state used by witnesses: one result for prompt id
1, nothing for prompt id 2. -/
def witnessFeState : FeRunState :=
  ⟨[("1", ⟨"1", "What is 2+2?", "4", 0, false, none, none, []⟩)], 0, [], none, 0, true⟩

/-! ### Test-set export and import (src/unnamed/part_009 and part_010) -/

/-- Test-set export (src/unnamed/part_009, handleExport): the editor
content is written to the downloaded file verbatim, as a Blob of
testsetContent; browser file output is byte-faithful. -/
def handleExportTestset (testsetContent : String) : String := testsetContent

/-- Test-set import (src/unnamed/part_009, handleImport): the chosen
file's text is read verbatim into the editor content
(FileReader.readAsText followed by setTestsetContent). -/
def handleImportTestset (fileText : String) : String := fileText

/-- Fields of one parsed test-set line: a PromptItem as serialized in the
JSONL exchange format, the metadata value abstracted as a string. -/
structure PromptLineFields where
  id : String
  content : String
  expected_answer : Option String
  category : Option String
  difficulty : Option String
  metadata : Option String
deriving DecidableEq

/-- BenchmarkPrompt as built by the benchmark page (src/unnamed/part_010,
handleRun, lines 121 to 130): only id, content, expected_answer,
category and difficulty are carried into the run request. -/
structure FeBenchmarkPrompt where
  id : String
  content : String
  expected_answer : Option String
  category : Option String
  difficulty : Option String
deriving DecidableEq

/-- Field projection of handleRun (src/unnamed/part_010): the five
prompt fields kept from a parsed test-set line. -/
def toFeBenchmarkPrompt (f : PromptLineFields) : FeBenchmarkPrompt :=
  ⟨f.id, f.content, f.expected_answer, f.category, f.difficulty⟩

/-- Prompt list of the BenchmarkRequest built from custom test-set data
(src/unnamed/part_010, handleRun): the data is trimmed, split into
lines, and every line JSON-parsed; parseLine abstracts JSON.parse with
none meaning a thrown error, in which case handleRun abandons the parsed
format (none here). -/
def buildBenchmarkPrompts (parseLine : String → Option PromptLineFields) (data : String) :
    Option (List FeBenchmarkPrompt) :=
  ((splitLinesString (trimString data)).mapM parseLine).map
    (fun fs => fs.map toFeBenchmarkPrompt)

end LLMBench

namespace LLMBench

/-! ### Helper lemmas about the Runner -/

theorem runPrompt_countP_answer (adapter : PromptItem → AdapterResult)
    (evaluator : PromptItem → String → EvalOutcome) (p : PromptItem) :
    ((runPrompt adapter evaluator p).events).countP isAnswerEvent = 1 := by
  unfold runPrompt
  cases hA : adapter p with
  | ok content lat tools =>
    cases hE : evaluator p content <;>
      simp [hE, List.countP_cons, List.countP_append, List.countP_map, isAnswerEvent,
        Function.comp, List.countP_eq_zero]
  | fail reason => simp [List.countP_cons, isAnswerEvent]

theorem runPrompt_countP_eval (adapter : PromptItem → AdapterResult)
    (evaluator : PromptItem → String → EvalOutcome) (p : PromptItem) :
    ((runPrompt adapter evaluator p).events).countP isEvalEvent = 1 := by
  unfold runPrompt
  cases hA : adapter p with
  | ok content lat tools =>
    cases hE : evaluator p content <;>
      simp [hE, List.countP_cons, List.countP_append, List.countP_map, isEvalEvent,
        Function.comp, List.countP_eq_zero]
  | fail reason => simp [List.countP_cons, isEvalEvent]

theorem runPrompt_countP_summary (adapter : PromptItem → AdapterResult)
    (evaluator : PromptItem → String → EvalOutcome) (p : PromptItem) :
    ((runPrompt adapter evaluator p).events).countP isSummaryEvent = 0 := by
  unfold runPrompt
  cases hA : adapter p with
  | ok content lat tools =>
    cases hE : evaluator p content <;>
      simp [hE, List.countP_cons, List.countP_append, List.countP_map, isSummaryEvent,
        Function.comp, List.countP_eq_zero]
  | fail reason => simp [List.countP_cons, isSummaryEvent]

theorem runPrompt_countP_answerFor (adapter : PromptItem → AdapterResult)
    (evaluator : PromptItem → String → EvalOutcome) (p : PromptItem) (pid : String) :
    ((runPrompt adapter evaluator p).events).countP (isAnswerFor pid)
      = if p.id == pid then 1 else 0 := by
  unfold runPrompt
  cases hA : adapter p with
  | ok content lat tools =>
    cases hE : evaluator p content <;>
      simp only [hE, List.countP_cons, List.countP_append, List.countP_map, isAnswerFor,
        Function.comp] <;>
      rw [List.countP_eq_zero.mpr (by intro a _; simp [Function.comp, isAnswerFor])] <;>
      by_cases hid : p.id == pid <;> simp [hid]
  | fail reason =>
    simp only [List.countP_cons, List.countP_nil, isAnswerFor]
    by_cases hid : p.id == pid <;> simp [hid]

theorem runPrompt_countP_evalFor (adapter : PromptItem → AdapterResult)
    (evaluator : PromptItem → String → EvalOutcome) (p : PromptItem) (pid : String) :
    ((runPrompt adapter evaluator p).events).countP (isEvalFor pid)
      = if p.id == pid then 1 else 0 := by
  unfold runPrompt
  cases hA : adapter p with
  | ok content lat tools =>
    cases hE : evaluator p content <;>
      simp only [hE, List.countP_cons, List.countP_append, List.countP_map, isEvalFor,
        Function.comp] <;>
      rw [List.countP_eq_zero.mpr (by intro a _; simp [Function.comp, isEvalFor])] <;>
      by_cases hid : p.id == pid <;> simp [hid]
  | fail reason =>
    simp only [List.countP_cons, List.countP_nil, isEvalFor]
    by_cases hid : p.id == pid <;> simp [hid]

theorem runPrompt_filterMap_score (adapter : PromptItem → AdapterResult)
    (evaluator : PromptItem → String → EvalOutcome) (p : PromptItem) :
    ((runPrompt adapter evaluator p).events).filterMap evalScoreOf
      = [(runPrompt adapter evaluator p).score] := by
  unfold runPrompt
  cases hA : adapter p with
  | ok content lat tools =>
    cases hE : evaluator p content <;>
      simp [hE, List.filterMap_cons, List.filterMap_append, List.filterMap_map, evalScoreOf,
        Function.comp]
  | fail reason => simp [List.filterMap_cons, evalScoreOf]

theorem runPrompt_answer_eval_sublist (adapter : PromptItem → AdapterResult)
    (evaluator : PromptItem → String → EvalOutcome) (p : PromptItem) :
    ∃ ea ee, isAnswerFor p.id ea = true ∧ isEvalFor p.id ee = true ∧
      List.Sublist [ea, ee] ((runPrompt adapter evaluator p).events) := by
  cases hA : adapter p with
  | ok content lat tools =>
    cases hE : evaluator p content with
    | ok score =>
      refine ⟨Event.answer p.id (promptVersionerHash p.content) content lat,
        Event.eval p.id score (scorePassed p.difficulty score) none,
        by simp [isAnswerFor], by simp [isEvalFor], ?_⟩
      simp only [runPrompt, hA, hE]
      exact (List.sublist_append_right _ _).cons₂ _
    | fail reason =>
      refine ⟨Event.answer p.id (promptVersionerHash p.content) content lat,
        Event.eval p.id 0 false (some reason),
        by simp [isAnswerFor], by simp [isEvalFor], ?_⟩
      simp only [runPrompt, hA, hE]
      exact (List.sublist_append_right _ _).cons₂ _
  | fail reason =>
    refine ⟨Event.answer p.id (promptVersionerHash p.content) (errorPlaceholder reason) 0,
      Event.eval p.id 0 false (some reason),
      by simp [isAnswerFor], by simp [isEvalFor], ?_⟩
    simp only [runPrompt, hA]
    exact List.Sublist.refl _

theorem stream_countP_const (adapter : PromptItem → AdapterResult)
    (evaluator : PromptItem → String → EvalOutcome) (P : Event → Bool) (k : Nat)
    (h : ∀ p, ((runPrompt adapter evaluator p).events).countP P = k)
    (prompts : List PromptItem) :
    ((((prompts.map (runPrompt adapter evaluator)).map (fun o => o.events)).flatten).countP P)
      = k * prompts.length := by
  induction prompts with
  | nil => simp
  | cons p ps ih =>
    simp only [List.map_cons, List.flatten_cons, List.countP_append, h, ih, List.length_cons]
    ring

theorem stream_countP_perPrompt (adapter : PromptItem → AdapterResult)
    (evaluator : PromptItem → String → EvalOutcome) (P : String → Event → Bool)
    (hP : ∀ q pid, ((runPrompt adapter evaluator q).events).countP (P pid)
      = if q.id == pid then 1 else 0)
    (prompts : List PromptItem) (pid : String) :
    ((((prompts.map (runPrompt adapter evaluator)).map (fun o => o.events)).flatten).countP
      (P pid)) = (prompts.map PromptItem.id).count pid := by
  induction prompts with
  | nil => simp
  | cons q ps ih =>
    simp only [List.map_cons, List.flatten_cons, List.countP_append, hP, ih, List.count_cons]
    omega

theorem stream_filterMap_scores (adapter : PromptItem → AdapterResult)
    (evaluator : PromptItem → String → EvalOutcome) (prompts : List PromptItem) :
    (((prompts.map (runPrompt adapter evaluator)).map (fun o => o.events)).flatten).filterMap
      evalScoreOf = (prompts.map (runPrompt adapter evaluator)).map (fun o => o.score) := by
  induction prompts with
  | nil => simp
  | cons p ps ih =>
    simp only [List.map_cons, List.flatten_cons, List.filterMap_append, ih,
      runPrompt_filterMap_score]
    rfl

theorem countP_passed_add_not_passed (outs : List PromptOutcome) :
    outs.countP (fun o => o.passed) + outs.countP (fun o => !o.passed) = outs.length := by
  induction outs with
  | nil => simp
  | cons o os ih =>
    simp only [List.countP_cons, List.length_cons]
    cases h : o.passed <;> simp <;> omega

theorem runBenchmark_ok_elim {adapter : PromptItem → AdapterResult}
    {evaluator : PromptItem → String → EvalOutcome} {req : BenchmarkRequest}
    {events : List Event}
    (h : runBenchmark adapter evaluator req = .ok events) :
    events = runEventStream adapter evaluator req ∧
    req.prompts ≠ [] ∧ (req.prompts.map PromptItem.id).Nodup := by
  by_cases h1 : req.prompts.isEmpty
  · simp [runBenchmark, h1] at h
  · by_cases h2 : (req.prompts.map PromptItem.id).Nodup
    · refine ⟨?_, ?_, h2⟩
      · simp only [runBenchmark, h1, h2, if_true, if_false, Bool.false_eq_true,
          reduceIte] at h
        exact (Except.ok.injEq _ _ ▸ h).symm
      · intro hnil
        exact h1 (by simp [hnil])
    · simp [runBenchmark, h1, h2] at h

theorem runEventStream_def (adapter : PromptItem → AdapterResult)
    (evaluator : PromptItem → String → EvalOutcome) (req : BenchmarkRequest) :
    runEventStream adapter evaluator req =
      ((req.prompts.map (runPrompt adapter evaluator)).map (fun o => o.events)).flatten ++
        [summaryOf (req.prompts.map (runPrompt adapter evaluator)) req.prompts.length] := rfl

/-! ### Validation of the SHA-256 implementation -/

/-- FIPS 180 test vector: the SHA-256 digest of "abc". -/
theorem sha256_test_vector_abc :
    bytesToHex (sha256Bytes (utf8Bytes "abc")) =
      "ba7816bf8f01cfea414140de5dae2223b00361a396177a9cb410ff61f20015ad" := by decide

/-! ### Claims -/

/-- C1: the evaluator's passed flag is true iff the score reaches the
difficulty-aware threshold: 0.6 for easy or unset difficulty, 0.5 for
medium, 0.4 for hard; in particular a hard prompt with score 0.4 passes
and one with score 0.39999 fails. -/
theorem claim1_passed_threshold_policy :
    passThreshold none = 0.6 ∧
    passThreshold (some "easy") = 0.6 ∧
    passThreshold (some "medium") = 0.5 ∧
    passThreshold (some "hard") = 0.4 ∧
    (∀ d s, scorePassed d s = true ↔ passThreshold d ≤ s) ∧
    scorePassed (some "hard") 0.4 = true ∧
    scorePassed (some "hard") 0.39999 = false := by
  have h4 : passThreshold (some "hard") = 0.4 := by
    norm_num [passThreshold, mkRat, Rat.normalize]
  have heasy : passThreshold (some "easy") = mkRat 3 5 := rfl
  refine ⟨?_, ?_, ?_, h4, ?_, ?_, ?_⟩
  · norm_num [passThreshold, mkRat, Rat.normalize]
  · rw [heasy]; norm_num [mkRat, Rat.normalize]
  · norm_num [passThreshold, mkRat, Rat.normalize]
  · simp [scorePassed]
  · norm_num [scorePassed, h4]
  · norm_num [scorePassed, h4]

/-- C8: PromptVersioner.hash is a deterministic pure function returning
the SHA-256 digest of the content with surrounding whitespace trimmed and
internal content preserved exactly; equal contents hash identically, and
contents differing only in surrounding whitespace hash identically. -/
theorem claim8_prompt_hash_deterministic :
    (∀ content : String,
      promptVersionerHash content = bytesToHex (sha256Bytes (utf8Bytes (trimString content)))) ∧
    (∀ c1 c2 : String, c1 = c2 → promptVersionerHash c1 = promptVersionerHash c2) ∧
    (∀ c1 c2 : String, trimString c1 = trimString c2 →
      promptVersionerHash c1 = promptVersionerHash c2) := by
  refine ⟨fun _ => rfl, fun c1 c2 h => by rw [h], fun c1 c2 h => ?_⟩
  unfold promptVersionerHash
  rw [h]

/-- Witness for C8: two concrete contents differing only in surrounding
whitespace hash identically, and equal contents hash identically. -/
theorem claim8_prompt_hash_deterministic_witness :
    promptVersionerHash "  What is 2+2? " = promptVersionerHash "What is 2+2?" :=
  claim8_prompt_hash_deterministic.2.2 "  What is 2+2? " "What is 2+2?" (by decide)

/-- C2: every completed run over N prompts emits exactly N AnswerEvents,
exactly N EvalEvents, zero or more ToolEvents and exactly one
SummaryEvent, which is the final event of the stream; each prompt has
exactly one AnswerEvent and one EvalEvent, and its EvalEvent appears
after its AnswerEvent. -/
theorem claim2_event_stream_shape (adapter : PromptItem → AdapterResult)
    (evaluator : PromptItem → String → EvalOutcome) (req : BenchmarkRequest)
    (events : List Event) (h : runBenchmark adapter evaluator req = .ok events) :
    events.countP isAnswerEvent = req.prompts.length ∧
    events.countP isEvalEvent = req.prompts.length ∧
    events.countP isSummaryEvent = 1 ∧
    (∃ pre s, isSummaryEvent s = true ∧ events = pre ++ [s] ∧
      pre.countP isSummaryEvent = 0) ∧
    ∀ p ∈ req.prompts,
      events.countP (isAnswerFor p.id) = 1 ∧
      events.countP (isEvalFor p.id) = 1 ∧
      ∃ ea ee, isAnswerFor p.id ea = true ∧ isEvalFor p.id ee = true ∧
        List.Sublist [ea, ee] events := by
  obtain ⟨hev, hne, hnd⟩ := runBenchmark_ok_elim h
  subst hev
  rw [runEventStream_def]
  refine ⟨?_, ?_, ?_, ?_, ?_⟩
  · rw [List.countP_append,
      stream_countP_const adapter evaluator isAnswerEvent 1
        (runPrompt_countP_answer adapter evaluator) req.prompts]
    simp [summaryOf, isAnswerEvent, List.countP_cons]
  · rw [List.countP_append,
      stream_countP_const adapter evaluator isEvalEvent 1
        (runPrompt_countP_eval adapter evaluator) req.prompts]
    simp [summaryOf, isEvalEvent, List.countP_cons]
  · rw [List.countP_append,
      stream_countP_const adapter evaluator isSummaryEvent 0
        (runPrompt_countP_summary adapter evaluator) req.prompts]
    simp [summaryOf, isSummaryEvent, List.countP_cons]
  · refine ⟨((req.prompts.map (runPrompt adapter evaluator)).map (fun o => o.events)).flatten,
      summaryOf (req.prompts.map (runPrompt adapter evaluator)) req.prompts.length,
      rfl, rfl, ?_⟩
    rw [stream_countP_const adapter evaluator isSummaryEvent 0
      (runPrompt_countP_summary adapter evaluator) req.prompts]
    simp
  · intro p hp
    have hidmem : p.id ∈ req.prompts.map PromptItem.id := List.mem_map_of_mem _ hp
    have hcount : (req.prompts.map PromptItem.id).count p.id = 1 :=
      List.count_eq_one_of_mem hnd hidmem
    refine ⟨?_, ?_, ?_⟩
    · rw [List.countP_append,
        stream_countP_perPrompt adapter evaluator isAnswerFor
          (runPrompt_countP_answerFor adapter evaluator) req.prompts p.id, hcount]
      simp [summaryOf, isAnswerFor, List.countP_cons]
    · rw [List.countP_append,
        stream_countP_perPrompt adapter evaluator isEvalFor
          (runPrompt_countP_evalFor adapter evaluator) req.prompts p.id, hcount]
      simp [summaryOf, isEvalFor, List.countP_cons]
    · obtain ⟨ea, ee, ha, he, hsub⟩ := runPrompt_answer_eval_sublist adapter evaluator p
      have hblockmem : (runPrompt adapter evaluator p).events ∈
          (req.prompts.map (runPrompt adapter evaluator)).map (fun o => o.events) :=
        List.mem_map_of_mem _ (List.mem_map_of_mem _ hp)
      exact ⟨ea, ee, ha, he,
        (hsub.trans (List.sublist_flatten_of_mem hblockmem)).trans (List.sublist_append_left _ _)⟩

/-- Witness for C2: the concrete two-prompt run emits exactly two
AnswerEvents, two EvalEvents and one SummaryEvent. -/
theorem claim2_event_stream_shape_witness :
    (emittedEvents (runBenchmark witnessAdapter witnessEvaluator witnessRequest)).countP
        isAnswerEvent = 2 ∧
    (emittedEvents (runBenchmark witnessAdapter witnessEvaluator witnessRequest)).countP
        isEvalEvent = 2 ∧
    (emittedEvents (runBenchmark witnessAdapter witnessEvaluator witnessRequest)).countP
        isSummaryEvent = 1 := by
  have h := claim2_event_stream_shape witnessAdapter witnessEvaluator witnessRequest
    (emittedEvents (runBenchmark witnessAdapter witnessEvaluator witnessRequest)) rfl
  exact ⟨h.1.trans rfl, h.2.1.trans rfl, h.2.2.1⟩

/-- C3: the SummaryEvent of a completed run over N prompts is the final
event and reports total_prompts = N, passed + failed = N, and an
average_score equal to the arithmetic mean of the N per-prompt scores
(exactly, hence within the stated 1e-9 tolerance; scores are exact
rationals in this model). -/
theorem claim3_summary_aggregates (adapter : PromptItem → AdapterResult)
    (evaluator : PromptItem → String → EvalOutcome) (req : BenchmarkRequest)
    (events : List Event) (h : runBenchmark adapter evaluator req = .ok events) :
    ∃ pc fc avg errs,
      events.getLast? = some (Event.summary req.prompts.length pc fc avg errs) ∧
      pc + fc = req.prompts.length ∧
      (events.filterMap evalScoreOf).length = req.prompts.length ∧
      avg = (events.filterMap evalScoreOf).sum / (req.prompts.length : ℚ) ∧
      |avg - (events.filterMap evalScoreOf).sum / (req.prompts.length : ℚ)| ≤
        mkRat 1 1000000000 := by
  obtain ⟨hev, hne, hnd⟩ := runBenchmark_ok_elim h
  subst hev
  rw [runEventStream_def]
  have hscores :
      ((((req.prompts.map (runPrompt adapter evaluator)).map (fun o => o.events)).flatten ++
        [summaryOf (req.prompts.map (runPrompt adapter evaluator))
          req.prompts.length]).filterMap evalScoreOf)
      = (req.prompts.map (runPrompt adapter evaluator)).map (fun o => o.score) := by
    rw [List.filterMap_append, stream_filterMap_scores]
    simp [summaryOf, evalScoreOf]
  refine ⟨(req.prompts.map (runPrompt adapter evaluator)).countP (fun o => o.passed),
    (req.prompts.map (runPrompt adapter evaluator)).countP (fun o => !o.passed),
    ((req.prompts.map (runPrompt adapter evaluator)).map (fun o => o.score)).sum /
      (req.prompts.length : ℚ),
    (req.prompts.map (runPrompt adapter evaluator)).filterMap (fun o => o.errorEntry),
    ?_, ?_, ?_, ?_, ?_⟩
  · rw [List.getLast?_concat]
    rfl
  · rw [countP_passed_add_not_passed]
    simp
  · rw [hscores]
    simp
  · rw [hscores]
  · rw [hscores]
    simp only [sub_self, abs_zero]
    decide

/-- C6: an empty prompt list, and likewise a duplicate prompt id, makes
the run fail with RequestError before any event is emitted: the emitted
event sequence is empty. -/
theorem claim6_request_validation (adapter : PromptItem → AdapterResult)
    (evaluator : PromptItem → String → EvalOutcome) (req : BenchmarkRequest) :
    (req.prompts = [] →
      runBenchmark adapter evaluator req = .error RequestError.emptyPrompts ∧
      emittedEvents (runBenchmark adapter evaluator req) = []) ∧
    (¬ (req.prompts.map PromptItem.id).Nodup →
      runBenchmark adapter evaluator req = .error RequestError.duplicateId ∧
      emittedEvents (runBenchmark adapter evaluator req) = []) := by
  constructor
  · intro h
    have he : req.prompts.isEmpty = true := by simp [h]
    simp [runBenchmark, he, emittedEvents]
  · intro h
    have hne : ¬ req.prompts.isEmpty = true := by
      intro hes
      apply h
      have : req.prompts = [] := List.isEmpty_iff.mp hes
      simp [this]
    simp [runBenchmark, hne, h, emittedEvents]

/-- Witness for C6: the concrete empty request and the concrete
duplicate-id request are both rejected with no events emitted. -/
theorem claim6_request_validation_witness :
    runBenchmark witnessAdapterOk witnessEvaluator witnessEmptyRequest =
      .error RequestError.emptyPrompts ∧
    emittedEvents (runBenchmark witnessAdapterOk witnessEvaluator witnessEmptyRequest) = [] ∧
    runBenchmark witnessAdapterOk witnessEvaluator witnessDupRequest =
      .error RequestError.duplicateId ∧
    emittedEvents (runBenchmark witnessAdapterOk witnessEvaluator witnessDupRequest) = [] := by
  have h1 :=
    (claim6_request_validation witnessAdapterOk witnessEvaluator witnessEmptyRequest).1 rfl
  have h2 :=
    (claim6_request_validation witnessAdapterOk witnessEvaluator witnessDupRequest).2
      (by decide)
  exact ⟨h1.1, h1.2, h2.1, h2.2⟩

/-- C7: for every raw string and budget, repair terminates (it is a total
function), issues at most retryBudget model-assisted repair calls, and
returns a failure only once the budget is exhausted and neither the
direct parse nor the structural fix of the final text succeeds. -/
theorem claim7_repair_budget {α : Type} (parse : String → Option α)
    (structuralFix reformatCall : String → String) (raw : String) (budget : Nat) :
    (repairJSON parse structuralFix reformatCall raw budget).2 ≤ budget ∧
    ((repairJSON parse structuralFix reformatCall raw budget).1 = none →
      (repairJSON parse structuralFix reformatCall raw budget).2 = budget) ∧
    ((repairJSON parse structuralFix reformatCall raw budget).1 = none →
      parse raw = none ∧ parse (structuralFix raw) = none) := by
  induction budget generalizing raw with
  | zero =>
    cases h1 : parse raw with
    | some v => simp [repairJSON, h1]
    | none =>
      cases h2 : parse (structuralFix raw) with
      | some v => simp [repairJSON, h1, h2]
      | none => simp [repairJSON, h1, h2]
  | succ b ih =>
    cases h1 : parse raw with
    | some v => simp [repairJSON, h1]
    | none =>
      cases h2 : parse (structuralFix raw) with
      | some v => simp [repairJSON, h1, h2]
      | none =>
        have hrec := ih (reformatCall raw)
        simp only [repairJSON, h1, h2]
        refine ⟨by omega, ?_, ?_⟩
        · intro hnone
          have := hrec.2.1 hnone
          omega
        · intro _
          exact ⟨trivial, trivial⟩

/-- Witness for C7: a concrete repair run that needs the single budgeted
model call uses exactly one call and succeeds. -/
theorem claim7_repair_budget_witness :
    (repairJSON (fun s => if s = "ok" then some true else none) id (fun _ => "ok")
      "bad" 1).2 ≤ 1 ∧
    ((repairJSON (fun s => if s = "ok" then some true else none) id (fun _ => "ok")
      "bad" 1).1 = none →
      (repairJSON (fun s => if s = "ok" then some true else none) id (fun _ => "ok")
        "bad" 1).2 = 1) :=
  ⟨(claim7_repair_budget (fun s => if s = "ok" then some true else none) id
      (fun _ => "ok") "bad" 1).1,
   (claim7_repair_budget (fun s => if s = "ok" then some true else none) id
      (fun _ => "ok") "bad" 1).2.1⟩

/-- C9: in the useBenchmarkRun event handler, a ToolEvent whose prompt_id
has no previously received AnswerEvent leaves the state unchanged (it is
silently discarded and appears in no result), and an EvalEvent for such a
prompt_id still increments the processed-prompt counter while leaving the
results map unchanged and publishing the unchanged values, so its score
is recorded in no result. -/
theorem claim9_orphan_events (reqPrompts : List (String × String)) (st : FeRunState)
    (pid : String) (hnone : mapGet st.resultsMap pid = none) :
    (∀ tname targs, handleFeEvent reqPrompts st (.tool ⟨pid, tname, targs⟩) = st) ∧
    (∀ score passed,
      (handleFeEvent reqPrompts st (.eval pid score passed)).resultsMap = st.resultsMap ∧
      (handleFeEvent reqPrompts st (.eval pid score passed)).processedPrompts
        = st.processedPrompts + 1 ∧
      (handleFeEvent reqPrompts st (.eval pid score passed)).results
        = mapValues st.resultsMap) := by
  constructor
  · intro tname targs
    simp [handleFeEvent, hnone]
  · intro score passed
    refine ⟨?_, rfl, ?_⟩ <;> simp [handleFeEvent, hnone]

/-- Witness for C9: with a concrete state holding only prompt id 1, an
orphan ToolEvent for prompt id 2 is dropped and an orphan EvalEvent for
prompt id 2 increments the counter without touching the map. -/
theorem claim9_orphan_events_witness :
    handleFeEvent [("1", "What is 2+2?")] witnessFeState
        (.tool ⟨"2", "web_search", "q"⟩) = witnessFeState ∧
    (handleFeEvent [("1", "What is 2+2?")] witnessFeState
        (.eval "2" 1 true)).resultsMap = witnessFeState.resultsMap ∧
    (handleFeEvent [("1", "What is 2+2?")] witnessFeState
        (.eval "2" 1 true)).processedPrompts = witnessFeState.processedPrompts + 1 := by
  have h := claim9_orphan_events [("1", "What is 2+2?")] witnessFeState "2" (by rfl)
  exact ⟨h.1 "web_search" "q", (h.2 1 true).1, (h.2 1 true).2.1⟩

/-- C4: a test-set file produced by the export operation re-imports to
the identical editor content, so the per-line parsed PromptItems (with
all their fields, metadata included) and the derived BenchmarkRequest
prompt list are identical to those of the original content. -/
theorem claim4_testset_roundtrip (content : String) :
    handleImportTestset (handleExportTestset content) = content ∧
    (∀ parseLine : String → Option PromptLineFields,
      (splitLinesString (trimString (handleImportTestset
        (handleExportTestset content)))).map parseLine
      = (splitLinesString (trimString content)).map parseLine) ∧
    (∀ parseLine : String → Option PromptLineFields,
      buildBenchmarkPrompts parseLine (handleImportTestset (handleExportTestset content))
      = buildBenchmarkPrompts parseLine content) :=
  ⟨rfl, fun _ => rfl, fun _ => rfl⟩

/-- Witness for C3: the concrete two-prompt run ends in a SummaryEvent
with total_prompts = 2 and passed + failed = 2. -/
theorem claim3_summary_aggregates_witness :
    ∃ pc fc avg errs,
      (emittedEvents (runBenchmark witnessAdapter witnessEvaluator
        witnessRequest)).getLast? = some (Event.summary 2 pc fc avg errs) ∧
      pc + fc = 2 := by
  obtain ⟨pc, fc, avg, errs, h1, h2, _⟩ := claim3_summary_aggregates witnessAdapter
    witnessEvaluator witnessRequest
    (emittedEvents (runBenchmark witnessAdapter witnessEvaluator witnessRequest)) rfl
  exact ⟨pc, fc, avg, errs, h1, h2⟩

theorem filterMap_eq_single_of_mem {α β : Type} (g : α → Option β)
    (l : List α) (p : α) (v : β) (hl : l.Nodup) (hp : p ∈ l) (hv : g p = some v)
    (h0 : ∀ q ∈ l, q ≠ p → g q = none) :
    l.filterMap g = [v] := by
  induction l with
  | nil => cases hp
  | cons a l ih =>
    rcases List.mem_cons.mp hp with rfl | hpl
    · have hnil : l.filterMap g = [] := by
        rw [List.filterMap_eq_nil_iff]
        intro q hq
        exact h0 q (List.mem_cons_of_mem _ hq)
          (fun hqa => (List.nodup_cons.mp hl).1 (hqa ▸ hq))
      simp [List.filterMap_cons, hv, hnil]
    · have ha : g a = none :=
        h0 a (List.mem_cons_self a l)
          (by rintro rfl; exact (List.nodup_cons.mp hl).1 hpl)
      simp only [List.filterMap_cons, ha]
      exact ih (List.nodup_cons.mp hl).2 hpl
        (fun q hq hqp => h0 q (List.mem_cons_of_mem _ hq) hqp)

/-- C5: when the ModelAdapter fails on one prompt of a valid request and
every other prompt is failure-free, the run still completes: the failed
prompt gets an AnswerEvent carrying the error placeholder and an
EvalEvent with score 0 and passed false, the SummaryEvent errors list is
exactly the one entry for that prompt, and the events of every other
prompt do not depend on what the adapter does on the failed prompt. -/
theorem claim5_adapter_failure_isolation (adapter : PromptItem → AdapterResult)
    (evaluator : PromptItem → String → EvalOutcome) (req : BenchmarkRequest)
    (p : PromptItem) (reason : String)
    (hp : p ∈ req.prompts)
    (hnd : (req.prompts.map PromptItem.id).Nodup)
    (hfail : adapter p = .fail reason)
    (hothers : ∀ q ∈ req.prompts, q.id ≠ p.id →
      (runPrompt adapter evaluator q).errorEntry = none) :
    ∃ events, runBenchmark adapter evaluator req = .ok events ∧
      Event.answer p.id (promptVersionerHash p.content) (errorPlaceholder reason) 0 ∈ events ∧
      Event.eval p.id 0 false (some reason) ∈ events ∧
      (∃ pc fc avg, events.getLast? =
        some (Event.summary req.prompts.length pc fc avg [p.id ++ ": " ++ reason])) ∧
      (∀ adapter2 : PromptItem → AdapterResult,
        (∀ q : PromptItem, q.id ≠ p.id → adapter2 q = adapter q) →
        ∀ q ∈ req.prompts, q.id ≠ p.id →
          runPrompt adapter2 evaluator q = runPrompt adapter evaluator q) := by
  have hne : ¬ req.prompts.isEmpty = true := by
    cases hreq : req.prompts with
    | nil => rw [hreq] at hp; cases hp
    | cons a l => simp [hreq]
  have hblock : (runPrompt adapter evaluator p).events =
      [Event.answer p.id (promptVersionerHash p.content) (errorPlaceholder reason) 0,
       Event.eval p.id 0 false (some reason)] := by
    simp [runPrompt, hfail]
  have hblockmem : (runPrompt adapter evaluator p).events ∈
      (req.prompts.map (runPrompt adapter evaluator)).map (fun o => o.events) :=
    List.mem_map_of_mem _ (List.mem_map_of_mem _ hp)
  refine ⟨runEventStream adapter evaluator req, ?_, ?_, ?_, ?_, ?_⟩
  · simp [runBenchmark, hne, hnd]
  · rw [runEventStream_def]
    apply List.mem_append_left
    refine List.mem_flatten.mpr ⟨_, hblockmem, ?_⟩
    rw [hblock]
    simp
  · rw [runEventStream_def]
    apply List.mem_append_left
    refine List.mem_flatten.mpr ⟨_, hblockmem, ?_⟩
    rw [hblock]
    simp
  · have herr : (req.prompts.map (runPrompt adapter evaluator)).filterMap
        (fun o => o.errorEntry) = [p.id ++ ": " ++ reason] := by
      rw [List.filterMap_map]
      refine filterMap_eq_single_of_mem _ _ p _ (hnd.of_map PromptItem.id) hp ?_ ?_
      · simp [Function.comp, runPrompt, hfail]
      · intro q hq hqp
        have hqid : q.id ≠ p.id := by
          intro hid
          exact hqp (List.inj_on_of_nodup_map hnd hq hp hid)
        simpa [Function.comp] using hothers q hq hqid
    refine ⟨(req.prompts.map (runPrompt adapter evaluator)).countP (fun o => o.passed),
      (req.prompts.map (runPrompt adapter evaluator)).countP (fun o => !o.passed),
      ((req.prompts.map (runPrompt adapter evaluator)).map (fun o => o.score)).sum /
        (req.prompts.length : ℚ), ?_⟩
    rw [runEventStream_def, List.getLast?_concat]
    simp [summaryOf, herr]
  · intro adapter2 hagree q hq hqid
    unfold runPrompt
    rw [hagree q hqid]

/-- Witness for C5: in the concrete two-prompt run whose adapter times
out on prompt id 2, that prompt gets the placeholder AnswerEvent, a
failed EvalEvent and the single summary error entry. -/
theorem claim5_adapter_failure_isolation_witness :
    ∃ events, runBenchmark witnessAdapter witnessEvaluator witnessRequest = .ok events ∧
      Event.answer "2" (promptVersionerHash "Explain AI") (errorPlaceholder "timeout") 0
        ∈ events ∧
      Event.eval "2" 0 false (some "timeout") ∈ events ∧
      ∃ pc fc avg, events.getLast? = some (Event.summary 2 pc fc avg ["2: timeout"]) := by
  obtain ⟨events, h1, h2, h3, h4, _⟩ := claim5_adapter_failure_isolation witnessAdapter
    witnessEvaluator witnessRequest ⟨"2", "Explain AI", none, none, some "hard", none⟩
    "timeout" (by decide) (by decide) rfl (by decide)
  exact ⟨events, h1, h2, h3, h4⟩

theorem splitLinesChar_ne_nil (s : List Char) : splitLinesChar s ≠ [] := by
  cases s with
  | nil => simp [splitLinesChar]
  | cons c rest =>
    by_cases hc : c = '\n' <;> simp [splitLinesChar, hc]

theorem splitLinesChar_no_newline (s : List Char) (h : '\n' ∉ s) :
    splitLinesChar s = [s] := by
  induction s with
  | nil => rfl
  | cons c rest ih =>
    have hc : ¬ c = '\n' := fun hh => h (hh ▸ List.mem_cons_self c rest)
    have hrest : '\n' ∉ rest := fun hh => h (List.mem_cons_of_mem _ hh)
    simp [splitLinesChar, hc, ih hrest]

theorem getLastD_mem {β : Type} (l : List β) (d : β) (h : l ≠ []) : l.getLastD d ∈ l := by
  induction l generalizing d with
  | nil => exact absurd rfl h
  | cons a as ih =>
    rw [List.getLastD_cons]
    cases as with
    | nil => simp [List.getLastD]
    | cons b bs => exact List.mem_cons_of_mem _ (ih a (by simp))

theorem no_newline_of_mem_splitLinesChar (s : List Char) :
    ∀ l ∈ splitLinesChar s, '\n' ∉ l := by
  induction s with
  | nil =>
    intro l hl
    simp [splitLinesChar] at hl
    simp [hl]
  | cons c rest ih =>
    intro l hl
    by_cases hc : c = '\n'
    · simp only [splitLinesChar, hc, if_pos] at hl
      rcases List.mem_cons.mp hl with rfl | hl2
      · simp
      · exact ih l hl2
    · simp only [splitLinesChar, hc, ite_false, if_neg] at hl
      rcases List.mem_cons.mp hl with rfl | hl2
      · intro hmem
        rcases List.mem_cons.mp hmem with heq | h2
        · exact hc heq.symm
        · have hhead : (splitLinesChar rest).headD [] ∈ splitLinesChar rest := by
            cases hsp : splitLinesChar rest with
            | nil => exact absurd hsp (splitLinesChar_ne_nil rest)
            | cons a as => simp
          exact ih _ hhead h2
      · exact ih l (List.mem_of_mem_tail hl2)

theorem splitLinesChar_cons_ne (c : Char) (s : List Char) (hc : ¬ c = '\n') :
    splitLinesChar (c :: s) =
      (c :: (splitLinesChar s).headD []) :: (splitLinesChar s).tail := by
  simp [splitLinesChar, hc]

theorem getLastD_irrel {β : Type} (l : List β) (h : l ≠ []) (d1 d2 : β) :
    l.getLastD d1 = l.getLastD d2 := by
  rw [List.getLastD_eq_getLast?, List.getLastD_eq_getLast?,
    List.getLast?_eq_getLast_of_ne_nil h]
  rfl

theorem splitLinesChar_append (s t : List Char) :
    splitLinesChar (s ++ t) =
      (splitLinesChar s).dropLast ++
        splitLinesChar ((splitLinesChar s).getLastD [] ++ t) := by
  induction s with
  | nil => simp [splitLinesChar]
  | cons c rest ih =>
    rw [List.cons_append]
    by_cases hc : c = '\n'
    · subst hc
      have h1 : splitLinesChar ('\n' :: (rest ++ t)) = [] :: splitLinesChar (rest ++ t) := by
        simp [splitLinesChar]
      have h2 : splitLinesChar ('\n' :: rest) = [] :: splitLinesChar rest := by
        simp [splitLinesChar]
      rw [h1, h2, List.dropLast_cons_of_ne_nil (splitLinesChar_ne_nil rest),
        List.getLastD_cons, ih, List.cons_append]
    · rw [splitLinesChar_cons_ne c (rest ++ t) hc, splitLinesChar_cons_ne c rest hc]
      cases hsp : splitLinesChar rest with
      | nil => exact absurd hsp (splitLinesChar_ne_nil rest)
      | cons l ls =>
        cases ls with
        | nil =>
          have hih : splitLinesChar (rest ++ t) = splitLinesChar (l ++ t) := by
            rw [ih, hsp]
            simp [List.getLastD]
          rw [hih]
          simp only [List.headD_cons, List.tail_cons, List.dropLast_single,
            List.nil_append, List.getLastD_cons, List.getLastD_nil, List.cons_append]
          rw [splitLinesChar_cons_ne c (l ++ t) hc]
        | cons l2 ls2 =>
          have hlsne : (l2 :: ls2 : List (List Char)) ≠ [] := by simp
          have hih : splitLinesChar (rest ++ t) =
              l :: ((l2 :: ls2).dropLast ++
                splitLinesChar ((l2 :: ls2).getLastD l ++ t)) := by
            rw [ih, hsp, List.dropLast_cons_of_ne_nil hlsne, List.getLastD_cons,
              List.cons_append]
          rw [hih]
          simp only [List.headD_cons, List.tail_cons]
          rw [show ((c :: l) :: l2 :: ls2 : List (List Char)).getLastD [] =
              (l2 :: ls2).getLastD l from by
            rw [List.getLastD_cons]
            exact getLastD_irrel _ hlsne _ _]
          rw [List.dropLast_cons_of_ne_nil hlsne]
          simp [List.cons_append]

theorem splitLinesChar_append_newline (l : List Char) (h : '\n' ∉ l) :
    splitLinesChar (l ++ ['\n']) = [l, []] := by
  induction l with
  | nil => rfl
  | cons c rest ih =>
    have hc : ¬ c = '\n' := fun hh => h (hh ▸ List.mem_cons_self c rest)
    have hrest : '\n' ∉ rest := fun hh => h (List.mem_cons_of_mem _ hh)
    simp [splitLinesChar, hc, ih hrest]

theorem ndjsonLoop_eq {α : Type} (parse : List Char → Option α) :
    ∀ (chunks : List (List Char)) (buffer : List Char), '\n' ∉ buffer →
      ndjsonLoop parse buffer chunks =
        (splitLinesChar (buffer ++ chunks.flatten)).filterMap (parseLineStep parse) := by
  intro chunks
  induction chunks with
  | nil =>
    intro buffer hb
    rw [List.flatten_nil, List.append_nil, splitLinesChar_no_newline _ hb]
    cases hstep : parseLineStep parse buffer <;> simp [ndjsonLoop, hstep]
  | cons chunk rest ih =>
    intro buffer hb
    have hbc : '\n' ∉ (splitLinesChar (buffer ++ chunk)).getLastD [] :=
      no_newline_of_mem_splitLinesChar (buffer ++ chunk) _
        (getLastD_mem _ _ (splitLinesChar_ne_nil _))
    simp only [ndjsonLoop]
    rw [ih _ hbc, List.flatten_cons, ← List.append_assoc,
      splitLinesChar_append (buffer ++ chunk) rest.flatten, List.filterMap_append]

/-- C10: parseNDJSONStream yields exactly the parsed events of the
non-blank lines of the concatenated stream, in line order, regardless of
chunk boundaries; appending a final newline to the stream changes
nothing, so a final non-newline-terminated line (such as the
SummaryEvent line) is parsed and delivered either way. -/
theorem claim10_ndjson_stream_parsing {α : Type} (parse : List Char → Option α)
    (chunks : List (List Char)) :
    parseNDJSONStream parse chunks =
      (splitLinesChar chunks.flatten).filterMap (parseLineStep parse) ∧
    parseNDJSONStream parse (chunks ++ [['\n']]) = parseNDJSONStream parse chunks := by
  have hmain : ∀ cs : List (List Char), parseNDJSONStream parse cs =
      (splitLinesChar cs.flatten).filterMap (parseLineStep parse) := by
    intro cs
    unfold parseNDJSONStream
    rw [ndjsonLoop_eq parse cs [] (by simp)]
    rfl
  refine ⟨hmain chunks, ?_⟩
  rw [hmain, hmain]
  have hflat : (chunks ++ [['\n']]).flatten = chunks.flatten ++ ['\n'] := by simp
  rw [hflat, splitLinesChar_append chunks.flatten ['\n'],
    splitLinesChar_append_newline _ (no_newline_of_mem_splitLinesChar chunks.flatten _
      (getLastD_mem _ _ (splitLinesChar_ne_nil _)))]
  have hS := splitLinesChar_ne_nil chunks.flatten
  rw [List.filterMap_append]
  have hsplit : (splitLinesChar chunks.flatten).dropLast ++
      [(splitLinesChar chunks.flatten).getLastD []] = splitLinesChar chunks.flatten := by
    have hgl : (splitLinesChar chunks.flatten).getLastD [] =
        (splitLinesChar chunks.flatten).getLast hS := by
      rw [List.getLastD_eq_getLast?, List.getLast?_eq_getLast _ hS]
      rfl
    rw [hgl]
    exact List.dropLast_append_getLast hS
  conv_rhs => rw [← hsplit]
  rw [List.filterMap_append]
  have hblank : parseLineStep parse ([] : List Char) = none := rfl
  cases hfx : parseLineStep parse ((splitLinesChar chunks.flatten).getLastD []) <;>
    simp [List.filterMap_cons, hfx, hblank, List.getLastD_eq_getLast?]

end LLMBench
